import Mathlib

/-!
Verification of the packet ray/triangle intersector
`Triangle4Intersector4MoellerTrumbore` from
`embree/geometry/triangle4_intersector4_moeller.h`.

The kernel operates on 4-wide SIMD lanes (`ssef`, `sseb`, `sse3f`).
We embed a lane vector as a function `Fin 4 → ℚ`, a lane mask as
`Fin 4 → Bool`, and the IEEE sign tricks exactly:
`signmsk det` is the sign bit (`det < 0`), and `x ^ sgnDet` is a
conditional negation.  `rcp` (SSE approximate reciprocal refined by
Newton iteration) is modelled as the exact field inverse.  Floating
point rounding is not modelled; arithmetic is exact over ℚ.
-/

/-- Width-4 SIMD float vector (one rational per lane). -/
abbrev ssef := Fin 4 → ℚ

/-- Width-4 SIMD boolean mask. -/
abbrev sseb := Fin 4 → Bool

/-- Width-4 SIMD integer vector (triangle/geometry ids). -/
abbrev ssei := Fin 4 → Int

/-- Scalar 3D vector (`Vector3f` in the source). -/
structure Vec3 where
  x : ℚ
  y : ℚ
  z : ℚ
deriving DecidableEq, Repr

/-- Component-wise dot product of scalar vectors. -/
def Vec3.dot (a b : Vec3) : ℚ := a.x * b.x + a.y * b.y + a.z * b.z

/-- Cross product of scalar vectors. -/
def Vec3.cross (a b : Vec3) : Vec3 :=
  ⟨a.y * b.z - a.z * b.y, a.z * b.x - a.x * b.z, a.x * b.y - a.y * b.x⟩

/-- Subtraction of scalar vectors. -/
def Vec3.sub (a b : Vec3) : Vec3 := ⟨a.x - b.x, a.y - b.y, a.z - b.z⟩

/-- SIMD 3-vector: three lane vectors (`sse3f` in the source). -/
@[ext]
structure sse3f where
  x : ssef
  y : ssef
  z : ssef

/-- Broadcast a scalar vector to all lanes (`sse3f(p0)` in the source). -/
def sse3f.ofVec (v : Vec3) : sse3f := ⟨fun _ => v.x, fun _ => v.y, fun _ => v.z⟩

/-- Lane-wise subtraction of SIMD 3-vectors. -/
def sse3f.sub (a b : sse3f) : sse3f :=
  ⟨fun i => a.x i - b.x i, fun i => a.y i - b.y i, fun i => a.z i - b.z i⟩

/-- Lane-wise cross product. -/
def sse3f.cross (a b : sse3f) : sse3f :=
  ⟨fun i => a.y i * b.z i - a.z i * b.y i,
   fun i => a.z i * b.x i - a.x i * b.z i,
   fun i => a.x i * b.y i - a.y i * b.x i⟩

/-- Lane-wise dot product. -/
def sse3f.dot (a b : sse3f) : ssef :=
  fun i => a.x i * b.x i + a.y i * b.y i + a.z i * b.z i

/-- Conditional negation: `x ^ sgnDet` where `sgnDet = signmsk det`
flips the sign bit of `x` on the lanes where the mask is set. -/
def xorSign (x : ssef) (s : sseb) : ssef := fun i => if s i then -(x i) else x i

/-- Lane select: `select(valid, a, b)` takes `a` where valid, else `b`. -/
def select (v : sseb) (a b : ssef) : ssef := fun i => if v i then a i else b i

/-- Lane select on integer vectors. -/
def selectI (v : sseb) (a b : ssei) : ssei := fun i => if v i then a i else b i

/-- Horizontal test `none(valid)`: no lane is set. -/
def noneM (v : sseb) : Bool := decide (∀ i, v i = false)

/-- Horizontal test `all(valid)`: every lane is set. -/
def allM (v : sseb) : Bool := decide (∀ i, v i = true)

/-- One triangle slot of a `Triangle4` leaf: position of the first
vertex, two precomputed edges, precomputed geometric normal
`Ng = cross(e1,e2)`, and the two identifiers.  The kernel reads these
fields as opaque build-time constants. -/
structure TriSlot where
  v0 : Vec3
  e1 : Vec3
  e2 : Vec3
  Ng : Vec3
  id0 : Int
  id1 : Int
deriving DecidableEq, Repr

/-- A `Triangle4` leaf: the ordered sequence of triangle slots the
`for (size_t i=0; i<tri.size(); i++)` loop visits. -/
abbrev Triangle4 := List TriSlot

/-- The `Ray4` packet: per-lane origin, direction, valid interval and
recorded hit fields, exactly the fields the kernel touches. -/
@[ext]
structure Ray4 where
  org : sse3f
  dir : sse3f
  tnear : ssef
  tfar : ssef
  u : ssef
  v : ssef
  id0 : ssei
  id1 : ssei
  Ng : sse3f

/-- `C = sse3f(p0) - ray.org`. -/
def slotC (ray : Ray4) (t : TriSlot) : sse3f := sse3f.sub (sse3f.ofVec t.v0) ray.org

/-- `R = cross(ray.dir, C)`. -/
def slotR (ray : Ray4) (t : TriSlot) : sse3f := sse3f.cross ray.dir (slotC ray t)

/-- `det = dot(sse3f(Ng), ray.dir)`. -/
def slotDet (ray : Ray4) (t : TriSlot) : ssef := sse3f.dot (sse3f.ofVec t.Ng) ray.dir

/-- `absDet = abs(det)`. -/
def slotAbsDet (ray : Ray4) (t : TriSlot) : ssef := fun i => |slotDet ray t i|

/-- `sgnDet = signmsk(det)`: the per-lane sign bit of the determinant. -/
def slotSgnDet (ray : Ray4) (t : TriSlot) : sseb := fun i => decide (slotDet ray t i < 0)

/-- `U = dot(R, sse3f(e2)) ^ sgnDet`. -/
def slotU (ray : Ray4) (t : TriSlot) : ssef :=
  xorSign (sse3f.dot (slotR ray t) (sse3f.ofVec t.e2)) (slotSgnDet ray t)

/-- `V = dot(R, sse3f(e1)) ^ sgnDet`. -/
def slotV (ray : Ray4) (t : TriSlot) : ssef :=
  xorSign (sse3f.dot (slotR ray t) (sse3f.ofVec t.e1)) (slotSgnDet ray t)

/-- `W = absDet - U - V`. -/
def slotW (ray : Ray4) (t : TriSlot) : ssef :=
  fun i => slotAbsDet ray t i - slotU ray t i - slotV ray t i

/-- `T = dot(sse3f(Ng), C) ^ sgnDet`. -/
def slotT (ray : Ray4) (t : TriSlot) : ssef :=
  xorSign (sse3f.dot (sse3f.ofVec t.Ng) (slotC ray t)) (slotSgnDet ray t)

/-- `rcpAbsDet = rcp(absDet)` (exact reciprocal in this model). -/
def slotRcpAbsDet (ray : Ray4) (t : TriSlot) : ssef := fun i => (slotAbsDet ray t i)⁻¹

/-- Working mask after `valid &= det != ssef(zero)`. -/
def valid1 (m : sseb) (ray : Ray4) (t : TriSlot) : sseb :=
  fun i => m i && decide (slotDet ray t i ≠ 0)

/-- Working mask after `valid &= U >= 0.0f`. -/
def valid2 (m : sseb) (ray : Ray4) (t : TriSlot) : sseb :=
  fun i => valid1 m ray t i && decide (0 ≤ slotU ray t i)

/-- Working mask after `valid &= V >= 0.0f`. -/
def valid3 (m : sseb) (ray : Ray4) (t : TriSlot) : sseb :=
  fun i => valid2 m ray t i && decide (0 ≤ slotV ray t i)

/-- Working mask after `valid &= W >= 0.0f`. -/
def valid4 (m : sseb) (ray : Ray4) (t : TriSlot) : sseb :=
  fun i => valid3 m ray t i && decide (0 ≤ slotW ray t i)

/-- Working mask after the depth test
`valid &= (T >= absDet*ray.tnear) & (absDet*ray.tfar >= T)`. -/
def valid5 (m : sseb) (ray : Ray4) (t : TriSlot) : sseb :=
  fun i => valid4 m ray t i &&
    (decide (slotAbsDet ray t i * ray.tnear i ≤ slotT ray t i) &&
     decide (slotT ray t i ≤ slotAbsDet ray t i * ray.tfar i))

/-- Body of one iteration of the `intersect` loop: run the staged
Möller–Trumbore test for one triangle slot, with the source's
early-`continue` exits on an empty working mask, then update the hit
fields of the surviving lanes by lane select. -/
def intersectTri (m : sseb) (ray : Ray4) (t : TriSlot) : Ray4 :=
  if noneM (valid1 m ray t) then ray else
  if noneM (valid2 m ray t) then ray else
  if noneM (valid3 m ray t) then ray else
  if noneM (valid4 m ray t) then ray else
  if noneM (valid5 m ray t) then ray else
  { ray with
    u := select (valid5 m ray t)
      (fun i => slotU ray t i * slotRcpAbsDet ray t i) ray.u,
    v := select (valid5 m ray t)
      (fun i => slotV ray t i * slotRcpAbsDet ray t i) ray.v,
    tfar := select (valid5 m ray t)
      (fun i => slotT ray t i * slotRcpAbsDet ray t i) ray.tfar,
    id0 := selectI (valid5 m ray t) (fun _ => t.id0) ray.id0,
    id1 := selectI (valid5 m ray t) (fun _ => t.id1) ray.id1,
    Ng := ⟨select (valid5 m ray t) (fun _ => t.Ng.x) ray.Ng.x,
           select (valid5 m ray t) (fun _ => t.Ng.y) ray.Ng.y,
           select (valid5 m ray t) (fun _ => t.Ng.z) ray.Ng.z⟩ }

/-- `Triangle4Intersector4MoellerTrumbore::intersect`: fold the
per-slot body over the triangle slots of the leaf, mutating the ray
packet. -/
def intersect (m : sseb) (ray : Ray4) (tri : Triangle4) : Ray4 :=
  tri.foldl (intersectTri m) ray

/-- Loop of `occluded`, carrying the occlusion accumulator.  The ray
is a `const` reference in the source; we thread it through and return
it so that the absence of mutation is a stated theorem.  The staged
test is textually identical to the one in `intersect`; the surviving
mask is OR'ed into the occlusion mask and the loop returns early once
every lane is occluded. -/
def occludedAux (m : sseb) (ray : Ray4) : Triangle4 → sseb → sseb × Ray4
  | [], occ => (occ, ray)
  | t :: ts, occ =>
    if noneM (valid1 m ray t) then occludedAux m ray ts occ else
    if noneM (valid2 m ray t) then occludedAux m ray ts occ else
    if noneM (valid3 m ray t) then occludedAux m ray ts occ else
    if noneM (valid4 m ray t) then occludedAux m ray ts occ else
    if noneM (valid5 m ray t) then occludedAux m ray ts occ else
    if allM (fun i => occ i || valid5 m ray t i)
    then ((fun i => occ i || valid5 m ray t i), ray)
    else occludedAux m ray ts (fun i => occ i || valid5 m ray t i)

/-- `Triangle4Intersector4MoellerTrumbore::occluded`: the occlusion
mask starts as `!valid_i` and the loop accumulates surviving lanes. -/
def occluded (m : sseb) (ray : Ray4) (tri : Triangle4) : sseb :=
  (occludedAux m ray tri (fun i => !m i)).1

/-- Scalar view of one lane's ray origin. -/
def laneOrg (ray : Ray4) (i : Fin 4) : Vec3 := ⟨ray.org.x i, ray.org.y i, ray.org.z i⟩

/-- Scalar view of one lane's ray direction. -/
def laneDir (ray : Ray4) (i : Fin 4) : Vec3 := ⟨ray.dir.x i, ray.dir.y i, ray.dir.z i⟩

/-- Scalar conditional negation. -/
def xorSignQ (x : ℚ) (s : Bool) : ℚ := if s then -x else x

/-- Scalar determinant of the lane test, `dot(Ng, dir)`. -/
def laneDet (t : TriSlot) (d : Vec3) : ℚ := Vec3.dot t.Ng d

/-- Scalar sign bit of the lane determinant. -/
def laneSgn (t : TriSlot) (d : Vec3) : Bool := decide (laneDet t d < 0)

/-- Scalar `C = v0 - org` for one lane. -/
def laneC (t : TriSlot) (o : Vec3) : Vec3 := Vec3.sub t.v0 o

/-- Scalar `R = cross(dir, C)` for one lane. -/
def laneR (t : TriSlot) (o d : Vec3) : Vec3 := Vec3.cross d (laneC t o)

/-- Scalar un-corrected barycentric numerator `dot(R, e2)`. -/
def laneUraw (t : TriSlot) (o d : Vec3) : ℚ := Vec3.dot (laneR t o d) t.e2

/-- Scalar un-corrected barycentric numerator `dot(R, e1)`. -/
def laneVraw (t : TriSlot) (o d : Vec3) : ℚ := Vec3.dot (laneR t o d) t.e1

/-- Scalar un-corrected depth numerator `dot(Ng, C)`. -/
def laneTraw (t : TriSlot) (o : Vec3) : ℚ := Vec3.dot t.Ng (laneC t o)

/-- Scalar sign-corrected barycentric numerator `U` for one lane. -/
def laneU (t : TriSlot) (o d : Vec3) : ℚ :=
  xorSignQ (laneUraw t o d) (laneSgn t d)

/-- Scalar sign-corrected barycentric numerator `V` for one lane. -/
def laneV (t : TriSlot) (o d : Vec3) : ℚ :=
  xorSignQ (laneVraw t o d) (laneSgn t d)

/-- Scalar third barycentric numerator `W = absDet - U - V`. -/
def laneW (t : TriSlot) (o d : Vec3) : ℚ :=
  |laneDet t d| - laneU t o d - laneV t o d

/-- Scalar sign-corrected depth numerator `T` for one lane. -/
def laneT (t : TriSlot) (o d : Vec3) : ℚ :=
  xorSignQ (laneTraw t o) (laneSgn t d)

/-- Scalar normalized hit distance `T * rcp(absDet)` for one lane. -/
def laneTnorm (t : TriSlot) (o d : Vec3) : ℚ := laneT t o d * (|laneDet t d|)⁻¹

/-- Scalar normalized barycentric `U * rcp(absDet)` for one lane. -/
def laneUnorm (t : TriSlot) (o d : Vec3) : ℚ := laneU t o d * (|laneDet t d|)⁻¹

/-- Scalar normalized barycentric `V * rcp(absDet)` for one lane. -/
def laneVnorm (t : TriSlot) (o d : Vec3) : ℚ := laneV t o d * (|laneDet t d|)⁻¹

/-- Scalar per-lane acceptance test: the conjunction of the five
staged mask updates of the kernel for one lane. -/
def laneHit (t : TriSlot) (o d : Vec3) (tn tf : ℚ) : Bool :=
  decide (laneDet t d ≠ 0) && decide (0 ≤ laneU t o d) &&
  decide (0 ≤ laneV t o d) && decide (0 ≤ laneW t o d) &&
  decide (|laneDet t d| * tn ≤ laneT t o d) &&
  decide (laneT t o d ≤ |laneDet t d| * tf)

/-- Per-lane final mask of a slot: the lane is active and passes the
whole staged test against the current ray interval. -/
def hitMaskTri (m : sseb) (ray : Ray4) (t : TriSlot) : sseb :=
  fun i => m i && laneHit t (laneOrg ray i) (laneDir ray i) (ray.tnear i) (ray.tfar i)

/-- Per-lane "a hit was recorded" mask of a whole `intersect` call:
a lane records a hit on the head slot, or on a later slot of the ray
packet as already updated by the head slot. -/
def intersectHit (m : sseb) : Ray4 → Triangle4 → sseb
  | _, [] => fun _ => false
  | ray, t :: ts => fun i =>
      hitMaskTri m ray t i || intersectHit m (intersectTri m ray t) ts i

/-- Reference version of `occluded` that never returns early: it
processes every triangle slot of the leaf and ORs every surviving
mask into the occlusion accumulator. -/
def occludedNoEarlyAux (m : sseb) (ray : Ray4) : Triangle4 → sseb → sseb
  | [], occ => occ
  | t :: ts, occ => occludedNoEarlyAux m ray ts (fun i => occ i || valid5 m ray t i)

/-- `occluded` without the `all(occlusion)` early return. -/
def occludedNoEarly (m : sseb) (ray : Ray4) (tri : Triangle4) : sseb :=
  occludedNoEarlyAux m ray tri (fun i => !m i)

/-- Per-lane functional description of one `intersect` loop iteration:
each lane passing the whole staged test receives the normalized hit
data of this slot, every other lane keeps its previous values. -/
def intersectTriRef (m : sseb) (ray : Ray4) (t : TriSlot) : Ray4 :=
  { ray with
    u := select (hitMaskTri m ray t)
      (fun i => laneUnorm t (laneOrg ray i) (laneDir ray i)) ray.u,
    v := select (hitMaskTri m ray t)
      (fun i => laneVnorm t (laneOrg ray i) (laneDir ray i)) ray.v,
    tfar := select (hitMaskTri m ray t)
      (fun i => laneTnorm t (laneOrg ray i) (laneDir ray i)) ray.tfar,
    id0 := selectI (hitMaskTri m ray t) (fun _ => t.id0) ray.id0,
    id1 := selectI (hitMaskTri m ray t) (fun _ => t.id1) ray.id1,
    Ng := ⟨select (hitMaskTri m ray t) (fun _ => t.Ng.x) ray.Ng.x,
           select (hitMaskTri m ray t) (fun _ => t.Ng.y) ray.Ng.y,
           select (hitMaskTri m ray t) (fun _ => t.Ng.z) ray.Ng.z⟩ }

/-- All-lanes-active mask, used for concrete instances. -/
def mAll : sseb := fun _ => true

/-- All-lanes-inactive mask, used for concrete instances. -/
def mNone : sseb := fun _ => false

/-- Concrete ray packet: every lane starts at `(1/4, 1/4, 1)`, points in
`-z`, with valid interval `[0, 10]` and empty hit fields. -/
def ray0 : Ray4 where
  org := ⟨fun _ => 1/4, fun _ => 1/4, fun _ => 1⟩
  dir := ⟨fun _ => 0, fun _ => 0, fun _ => -1⟩
  tnear := fun _ => 0
  tfar := fun _ => 10
  u := fun _ => 0
  v := fun _ => 0
  id0 := fun _ => -1
  id1 := fun _ => -1
  Ng := ⟨fun _ => 0, fun _ => 0, fun _ => 0⟩

/-- Concrete triangle slot in the plane `z = 0`; `ray0` hits it at
distance 1 with barycentrics `u = v = 1/4`. -/
def triA : TriSlot := ⟨⟨0, 0, 0⟩, ⟨-1, 0, 0⟩, ⟨0, 1, 0⟩, ⟨0, 0, -1⟩, 10, 11⟩

/-- Concrete triangle slot in the plane `z = -1`; `ray0` hits it at
distance 2. -/
def triB : TriSlot := ⟨⟨0, 0, -1⟩, ⟨-1, 0, 0⟩, ⟨0, 1, 0⟩, ⟨0, 0, -1⟩, 20, 21⟩

/-- Concrete triangle slot with the same geometry as `triA` but other
ids; `ray0` hits it at exactly the same distance 1. -/
def triA2 : TriSlot := ⟨⟨0, 0, 0⟩, ⟨-1, 0, 0⟩, ⟨0, 1, 0⟩, ⟨0, 0, -1⟩, 40, 41⟩

/-- Concrete degenerate triangle slot (two identical vertices, so the
stored edge `e1` and the stored normal `Ng = cross(e1,e2)` are zero). -/
def triD : TriSlot := ⟨⟨0, 0, 0⟩, ⟨0, 0, 0⟩, ⟨0, 1, 0⟩, ⟨0, 0, 0⟩, 30, 31⟩

/-! ## Bridge between the SIMD computation and its per-lane scalar view -/

theorem slotDet_eq (ray : Ray4) (t : TriSlot) (i : Fin 4) :
    slotDet ray t i = laneDet t (laneDir ray i) := rfl

theorem slotU_eq (ray : Ray4) (t : TriSlot) (i : Fin 4) :
    slotU ray t i = laneU t (laneOrg ray i) (laneDir ray i) := rfl

theorem slotV_eq (ray : Ray4) (t : TriSlot) (i : Fin 4) :
    slotV ray t i = laneV t (laneOrg ray i) (laneDir ray i) := rfl

theorem slotT_eq (ray : Ray4) (t : TriSlot) (i : Fin 4) :
    slotT ray t i = laneT t (laneOrg ray i) (laneDir ray i) := rfl

theorem slotW_eq (ray : Ray4) (t : TriSlot) (i : Fin 4) :
    slotW ray t i = laneW t (laneOrg ray i) (laneDir ray i) := rfl

theorem valid5_eq (m : sseb) (ray : Ray4) (t : TriSlot) (i : Fin 4) :
    valid5 m ray t i = hitMaskTri m ray t i := by
  simp [valid5, valid4, valid3, valid2, valid1, hitMaskTri, laneHit,
    slotDet_eq, slotU_eq, slotV_eq, slotW_eq, slotT_eq, slotAbsDet, Bool.and_assoc]

theorem noneM_spec {v : sseb} (h : noneM v = true) (i : Fin 4) : v i = false := by
  simpa [noneM] using of_decide_eq_true h i

theorem allM_spec {v : sseb} (h : allM v = true) (i : Fin 4) : v i = true := by
  simpa [allM] using of_decide_eq_true h i

theorem valid5_false1 {m : sseb} {ray : Ray4} {t : TriSlot} {i : Fin 4}
    (h : valid1 m ray t i = false) : valid5 m ray t i = false := by
  simp [valid5, valid4, valid3, valid2, h]

theorem valid5_false2 {m : sseb} {ray : Ray4} {t : TriSlot} {i : Fin 4}
    (h : valid2 m ray t i = false) : valid5 m ray t i = false := by
  simp [valid5, valid4, valid3, h]

theorem valid5_false3 {m : sseb} {ray : Ray4} {t : TriSlot} {i : Fin 4}
    (h : valid3 m ray t i = false) : valid5 m ray t i = false := by
  simp [valid5, valid4, h]

theorem valid5_false4 {m : sseb} {ray : Ray4} {t : TriSlot} {i : Fin 4}
    (h : valid4 m ray t i = false) : valid5 m ray t i = false := by
  simp [valid5, h]

/-! ## Functional characterization of one `intersect` loop iteration -/

theorem intersectTri_eq (m : sseb) (ray : Ray4) (t : TriSlot) :
    intersectTri m ray t = intersectTriRef m ray t := by
  have idRef : (∀ i, hitMaskTri m ray t i = false) → intersectTriRef m ray t = ray := by
    intro hf
    unfold intersectTriRef
    ext i <;> simp [select, selectI, hf i]
  rw [intersectTri]
  split
  · next h =>
    exact (idRef fun i => by
      rw [← valid5_eq]; exact valid5_false1 (noneM_spec h i)).symm
  split
  · next h =>
    exact (idRef fun i => by
      rw [← valid5_eq]; exact valid5_false2 (noneM_spec h i)).symm
  split
  · next h =>
    exact (idRef fun i => by
      rw [← valid5_eq]; exact valid5_false3 (noneM_spec h i)).symm
  split
  · next h =>
    exact (idRef fun i => by
      rw [← valid5_eq]; exact valid5_false4 (noneM_spec h i)).symm
  split
  · next h =>
    exact (idRef fun i => by rw [← valid5_eq]; exact noneM_spec h i).symm
  · unfold intersectTriRef
    ext i <;> simp only [select, selectI, valid5_eq] <;> rfl

theorem intersectTri_org (m : sseb) (ray : Ray4) (t : TriSlot) :
    (intersectTri m ray t).org = ray.org := by rw [intersectTri_eq]; rfl

theorem intersectTri_dir (m : sseb) (ray : Ray4) (t : TriSlot) :
    (intersectTri m ray t).dir = ray.dir := by rw [intersectTri_eq]; rfl

theorem intersectTri_tnear (m : sseb) (ray : Ray4) (t : TriSlot) :
    (intersectTri m ray t).tnear = ray.tnear := by rw [intersectTri_eq]; rfl

theorem intersectTri_laneOrg (m : sseb) (ray : Ray4) (t : TriSlot) (i : Fin 4) :
    laneOrg (intersectTri m ray t) i = laneOrg ray i := by
  rw [laneOrg, laneOrg, intersectTri_org]

theorem intersectTri_laneDir (m : sseb) (ray : Ray4) (t : TriSlot) (i : Fin 4) :
    laneDir (intersectTri m ray t) i = laneDir ray i := by
  rw [laneDir, laneDir, intersectTri_dir]

theorem intersectTri_tfar (m : sseb) (ray : Ray4) (t : TriSlot) (i : Fin 4) :
    (intersectTri m ray t).tfar i =
      if hitMaskTri m ray t i then laneTnorm t (laneOrg ray i) (laneDir ray i)
      else ray.tfar i := by
  rw [intersectTri_eq]; rfl

theorem intersectTri_u (m : sseb) (ray : Ray4) (t : TriSlot) (i : Fin 4) :
    (intersectTri m ray t).u i =
      if hitMaskTri m ray t i then laneUnorm t (laneOrg ray i) (laneDir ray i)
      else ray.u i := by
  rw [intersectTri_eq]; rfl

theorem intersectTri_v (m : sseb) (ray : Ray4) (t : TriSlot) (i : Fin 4) :
    (intersectTri m ray t).v i =
      if hitMaskTri m ray t i then laneVnorm t (laneOrg ray i) (laneDir ray i)
      else ray.v i := by
  rw [intersectTri_eq]; rfl

theorem intersectTri_id0 (m : sseb) (ray : Ray4) (t : TriSlot) (i : Fin 4) :
    (intersectTri m ray t).id0 i =
      if hitMaskTri m ray t i then t.id0 else ray.id0 i := by
  rw [intersectTri_eq]; rfl

theorem intersectTri_id1 (m : sseb) (ray : Ray4) (t : TriSlot) (i : Fin 4) :
    (intersectTri m ray t).id1 i =
      if hitMaskTri m ray t i then t.id1 else ray.id1 i := by
  rw [intersectTri_eq]; rfl

theorem intersectTri_Ngx (m : sseb) (ray : Ray4) (t : TriSlot) (i : Fin 4) :
    (intersectTri m ray t).Ng.x i =
      if hitMaskTri m ray t i then t.Ng.x else ray.Ng.x i := by
  rw [intersectTri_eq]; rfl

theorem intersectTri_Ngy (m : sseb) (ray : Ray4) (t : TriSlot) (i : Fin 4) :
    (intersectTri m ray t).Ng.y i =
      if hitMaskTri m ray t i then t.Ng.y else ray.Ng.y i := by
  rw [intersectTri_eq]; rfl

theorem intersectTri_Ngz (m : sseb) (ray : Ray4) (t : TriSlot) (i : Fin 4) :
    (intersectTri m ray t).Ng.z i =
      if hitMaskTri m ray t i then t.Ng.z else ray.Ng.z i := by
  rw [intersectTri_eq]; rfl

/-! ## Arithmetic facts about the per-lane acceptance test -/

theorem laneHit_true_iff {t : TriSlot} {o d : Vec3} {tn tf : ℚ} :
    laneHit t o d tn tf = true ↔
      laneDet t d ≠ 0 ∧ 0 ≤ laneU t o d ∧ 0 ≤ laneV t o d ∧ 0 ≤ laneW t o d ∧
      |laneDet t d| * tn ≤ laneT t o d ∧ laneT t o d ≤ |laneDet t d| * tf := by
  simp [laneHit, and_assoc]

theorem laneHit_absDet_pos {t : TriSlot} {o d : Vec3} {tn tf : ℚ}
    (h : laneHit t o d tn tf = true) : 0 < |laneDet t d| :=
  abs_pos.2 (laneHit_true_iff.1 h).1

theorem laneHit_tnorm_bounds {t : TriSlot} {o d : Vec3} {tn tf : ℚ}
    (h : laneHit t o d tn tf = true) :
    tn ≤ laneTnorm t o d ∧ laneTnorm t o d ≤ tf := by
  obtain ⟨h0, -, -, -, hlo, hhi⟩ := laneHit_true_iff.1 h
  have hpos : 0 < |laneDet t d| := abs_pos.2 h0
  constructor
  · rw [laneTnorm, ← div_eq_mul_inv, le_div_iff₀ hpos]
    linarith
  · rw [laneTnorm, ← div_eq_mul_inv, div_le_iff₀ hpos]
    linarith

theorem hitMaskTri_laneHit {m : sseb} {ray : Ray4} {t : TriSlot} {i : Fin 4}
    (h : hitMaskTri m ray t i = true) :
    laneHit t (laneOrg ray i) (laneDir ray i) (ray.tnear i) (ray.tfar i) = true := by
  simp only [hitMaskTri, Bool.and_eq_true] at h
  exact h.2

/-! ## Facts about the whole `intersect` loop -/

theorem intersect_nil (m : sseb) (ray : Ray4) : intersect m ray [] = ray := rfl

theorem intersect_cons (m : sseb) (ray : Ray4) (t : TriSlot) (ts : Triangle4) :
    intersect m ray (t :: ts) = intersect m (intersectTri m ray t) ts := rfl

theorem intersect_tnear (m : sseb) (tri : Triangle4) (ray : Ray4) :
    (intersect m ray tri).tnear = ray.tnear := by
  induction tri generalizing ray with
  | nil => rfl
  | cons t ts ih => rw [intersect_cons, ih, intersectTri_tnear]

theorem intersect_org (m : sseb) (tri : Triangle4) (ray : Ray4) :
    (intersect m ray tri).org = ray.org := by
  induction tri generalizing ray with
  | nil => rfl
  | cons t ts ih => rw [intersect_cons, ih, intersectTri_org]

theorem intersect_dir (m : sseb) (tri : Triangle4) (ray : Ray4) :
    (intersect m ray tri).dir = ray.dir := by
  induction tri generalizing ray with
  | nil => rfl
  | cons t ts ih => rw [intersect_cons, ih, intersectTri_dir]

theorem intersect_inactive (m : sseb) (i : Fin 4) (hm : m i = false)
    (tri : Triangle4) (ray : Ray4) :
    (intersect m ray tri).u i = ray.u i ∧ (intersect m ray tri).v i = ray.v i ∧
    (intersect m ray tri).tfar i = ray.tfar i ∧
    (intersect m ray tri).id0 i = ray.id0 i ∧
    (intersect m ray tri).id1 i = ray.id1 i ∧
    (intersect m ray tri).Ng.x i = ray.Ng.x i ∧
    (intersect m ray tri).Ng.y i = ray.Ng.y i ∧
    (intersect m ray tri).Ng.z i = ray.Ng.z i := by
  induction tri generalizing ray with
  | nil => exact ⟨rfl, rfl, rfl, rfl, rfl, rfl, rfl, rfl⟩
  | cons t ts ih =>
    have hmask : hitMaskTri m ray t i = false := by simp [hitMaskTri, hm]
    obtain ⟨g1, g2, g3, g4, g5, g6, g7, g8⟩ := ih (intersectTri m ray t)
    rw [intersect_cons]
    refine ⟨?_, ?_, ?_, ?_, ?_, ?_, ?_, ?_⟩
    · rw [g1, intersectTri_u, hmask]; simp
    · rw [g2, intersectTri_v, hmask]; simp
    · rw [g3, intersectTri_tfar, hmask]; simp
    · rw [g4, intersectTri_id0, hmask]; simp
    · rw [g5, intersectTri_id1, hmask]; simp
    · rw [g6, intersectTri_Ngx, hmask]; simp
    · rw [g7, intersectTri_Ngy, hmask]; simp
    · rw [g8, intersectTri_Ngz, hmask]; simp

theorem intersectTri_tfar_bounds (m : sseb) (ray : Ray4) (t : TriSlot) (i : Fin 4)
    (h : ray.tnear i ≤ ray.tfar i) :
    ray.tnear i ≤ (intersectTri m ray t).tfar i ∧
    (intersectTri m ray t).tfar i ≤ ray.tfar i := by
  rw [intersectTri_tfar]
  split
  · next hhit => exact laneHit_tnorm_bounds (hitMaskTri_laneHit hhit)
  · exact ⟨h, le_refl _⟩

theorem intersect_tfar_bounds (m : sseb) (i : Fin 4) (tri : Triangle4) (ray : Ray4)
    (h : ray.tnear i ≤ ray.tfar i) :
    ray.tnear i ≤ (intersect m ray tri).tfar i ∧
    (intersect m ray tri).tfar i ≤ ray.tfar i := by
  induction tri generalizing ray with
  | nil => exact ⟨h, le_refl _⟩
  | cons t ts ih =>
    rw [intersect_cons]
    have htn : (intersectTri m ray t).tnear i = ray.tnear i := by
      rw [intersectTri_tnear]
    have hb := intersectTri_tfar_bounds m ray t i h
    have hrec := ih (intersectTri m ray t) (by rw [htn]; exact hb.1)
    rw [htn] at hrec
    exact ⟨hrec.1, le_trans hrec.2 hb.2⟩

theorem intersectHit_any (m : sseb) (i : Fin 4) (hm : m i = true)
    (tri : Triangle4) (ray : Ray4) :
    intersectHit m ray tri i =
      tri.any
        (fun t => laneHit t (laneOrg ray i) (laneDir ray i) (ray.tnear i) (ray.tfar i)) := by
  induction tri generalizing ray with
  | nil => rfl
  | cons t ts ih =>
    cases hhit : laneHit t (laneOrg ray i) (laneDir ray i) (ray.tnear i) (ray.tfar i) with
    | true => simp [intersectHit, List.any_cons, hitMaskTri, hm, hhit]
    | false =>
      have hmask : hitMaskTri m ray t i = false := by simp [hitMaskTri, hhit]
      rw [intersectHit]
      show (hitMaskTri m ray t i || intersectHit m (intersectTri m ray t) ts i) = _
      rw [hmask, Bool.false_or, ih (intersectTri m ray t),
        intersectTri_laneOrg, intersectTri_laneDir, intersectTri_tnear,
        intersectTri_tfar, hmask]
      simp [List.any_cons, hhit]

/-! ## Facts about the `occluded` loop -/

theorem occludedAux_ray (m : sseb) (ray : Ray4) (tri : Triangle4) (occ : sseb) :
    (occludedAux m ray tri occ).2 = ray := by
  induction tri generalizing occ with
  | nil => rfl
  | cons t ts ih =>
    rw [occludedAux]
    split_ifs <;> first | exact ih _ | rfl

theorem occludedAux_mask (m : sseb) (ray : Ray4) (i : Fin 4) (tri : Triangle4)
    (occ : sseb) :
    (occludedAux m ray tri occ).1 i =
      (occ i || tri.any fun t => valid5 m ray t i) := by
  induction tri generalizing occ with
  | nil => simp [occludedAux]
  | cons t ts ih =>
    rw [occludedAux]
    split_ifs with h1 h2 h3 h4 h5 h6
    · rw [ih]
      simp [List.any_cons, valid5_false1 (noneM_spec h1 i)]
    · rw [ih]
      simp [List.any_cons, valid5_false2 (noneM_spec h2 i)]
    · rw [ih]
      simp [List.any_cons, valid5_false3 (noneM_spec h3 i)]
    · rw [ih]
      simp [List.any_cons, valid5_false4 (noneM_spec h4 i)]
    · rw [ih]
      simp [List.any_cons, noneM_spec h5 i]
    · have htrue : (occ i || valid5 m ray t i) = true := allM_spec h6 i
      simp only [List.any_cons, ← Bool.or_assoc, htrue, Bool.true_or]
    · rw [ih]
      simp [List.any_cons, Bool.or_assoc]

theorem occluded_mask (m : sseb) (ray : Ray4) (tri : Triangle4) (i : Fin 4) :
    occluded m ray tri i = (!m i || tri.any fun t => hitMaskTri m ray t i) := by
  simp only [occluded, occludedAux_mask, valid5_eq]

theorem occludedNoEarlyAux_mask (m : sseb) (ray : Ray4) (i : Fin 4) (tri : Triangle4)
    (occ : sseb) :
    occludedNoEarlyAux m ray tri occ i =
      (occ i || tri.any fun t => valid5 m ray t i) := by
  induction tri generalizing occ with
  | nil => simp [occludedNoEarlyAux]
  | cons t ts ih =>
    rw [occludedNoEarlyAux, ih]
    simp [List.any_cons, Bool.or_assoc]

/-! ## Claim theorems -/

/-- Claim C3: for every call to `intersect` and every lane whose bit in
the active mask is false, that lane's `u`, `v`, `tfar`, `id0`, `id1`
and `Ng` fields of the ray packet are identical before and after the
call, for every triangle leaf supplied. -/
theorem c3_inactive_lane_frame (m : sseb) (ray : Ray4) (tri : Triangle4) (i : Fin 4)
    (hm : m i = false) :
    (intersect m ray tri).u i = ray.u i ∧ (intersect m ray tri).v i = ray.v i ∧
    (intersect m ray tri).tfar i = ray.tfar i ∧
    (intersect m ray tri).id0 i = ray.id0 i ∧
    (intersect m ray tri).id1 i = ray.id1 i ∧
    (intersect m ray tri).Ng.x i = ray.Ng.x i ∧
    (intersect m ray tri).Ng.y i = ray.Ng.y i ∧
    (intersect m ray tri).Ng.z i = ray.Ng.z i :=
  intersect_inactive m i hm tri ray

/-- Witness for C3 at a concrete inactive lane. -/
theorem c3_witness :
    (intersect mNone ray0 [triA]).u 0 = ray0.u 0 ∧
    (intersect mNone ray0 [triA]).v 0 = ray0.v 0 ∧
    (intersect mNone ray0 [triA]).tfar 0 = ray0.tfar 0 ∧
    (intersect mNone ray0 [triA]).id0 0 = ray0.id0 0 ∧
    (intersect mNone ray0 [triA]).id1 0 = ray0.id1 0 ∧
    (intersect mNone ray0 [triA]).Ng.x 0 = ray0.Ng.x 0 ∧
    (intersect mNone ray0 [triA]).Ng.y 0 = ray0.Ng.y 0 ∧
    (intersect mNone ray0 [triA]).Ng.z 0 = ray0.Ng.z 0 :=
  c3_inactive_lane_frame mNone ray0 [triA] 0 rfl

/-- Claim C7: for every call to `intersect` and every active lane
satisfying `tnear[lane] <= tfar[lane]` before the call, after the call
the lane's `tfar` is at most its old value and still at least
`tnear[lane]`: `intersect` only shrinks `tfar` and preserves the
interval invariant. -/
theorem c7_tfar_shrinks (m : sseb) (ray : Ray4) (tri : Triangle4) (i : Fin 4)
    (_hm : m i = true) (h : ray.tnear i ≤ ray.tfar i) :
    ray.tnear i ≤ (intersect m ray tri).tfar i ∧
    (intersect m ray tri).tfar i ≤ ray.tfar i :=
  intersect_tfar_bounds m i tri ray h

/-- Witness for C7 at a concrete active lane. -/
theorem c7_witness :
    ray0.tnear 0 ≤ (intersect mAll ray0 [triA]).tfar 0 ∧
    (intersect mAll ray0 [triA]).tfar 0 ≤ ray0.tfar 0 :=
  c7_tfar_shrinks mAll ray0 [triA] 0 rfl (by norm_num [ray0])

/-- Claim C10: `occluded` reports every inactive lane as occluded: the
occlusion mask is initialized to the complement of the active mask and
bits are only ever set, never cleared. -/
theorem c10_inactive_lane_occluded (m : sseb) (ray : Ray4) (tri : Triangle4) (i : Fin 4)
    (hm : m i = false) : occluded m ray tri i = true := by
  rw [occluded_mask, hm]
  simp

/-- Witness for C10 at a concrete inactive lane. -/
theorem c10_witness : occluded mNone ray0 [triA] 0 = true :=
  c10_inactive_lane_occluded mNone ray0 [triA] 0 rfl

/-- Claim C8: `occluded` never mutates any field of the ray packet: the
ray threaded through the whole loop is returned unchanged, and the
call's only effect is the returned per-lane mask. -/
theorem c8_occluded_no_mutation (m : sseb) (ray : Ray4) (tri : Triangle4) :
    (occludedAux m ray tri (fun i => !m i)).2 = ray :=
  occludedAux_ray m ray tri (fun i => !m i)

/-- Claim C6: the mask `occluded` returns when it terminates early
(as soon as every lane is occluded, skipping the remaining triangle
slots) equals the mask it would return processing every slot. -/
theorem c6_early_exit_equiv (m : sseb) (ray : Ray4) (tri : Triangle4) :
    occluded m ray tri = occludedNoEarly m ray tri := by
  funext i
  rw [occluded, occludedAux_mask, occludedNoEarly, occludedNoEarlyAux_mask]

/-- Claim C5: a triangle slot whose precomputed normal `Ng` is the zero
vector (a zero-area triangle) never records a hit in `intersect` and
never sets occlusion in `occluded`, for every ray packet and every
active mask: its determinant is zero for every ray direction, so the
`det != 0` test excludes all lanes and the slot is skipped whole. -/
theorem c5_degenerate_never_hits (t : TriSlot) (hNg : t.Ng = ⟨0, 0, 0⟩)
    (m : sseb) (ray : Ray4) (ts : Triangle4) (occ : sseb) :
    intersectTri m ray t = ray ∧
    occludedAux m ray (t :: ts) occ = occludedAux m ray ts occ := by
  have h1 : noneM (valid1 m ray t) = true := by
    simp [noneM, valid1, slotDet, sse3f.dot, sse3f.ofVec, hNg]
  exact ⟨by rw [intersectTri, if_pos h1], by rw [occludedAux, if_pos h1]⟩

/-- Witness for C5 at the concrete degenerate slot. -/
theorem c5_witness :
    intersectTri mAll ray0 triD = ray0 ∧
    occludedAux mAll ray0 [triD] (fun i => ! mAll i) =
      occludedAux mAll ray0 [] (fun i => ! mAll i) :=
  c5_degenerate_never_hits triD rfl mAll ray0 [] (fun i => ! mAll i)

/-- Claim C1 fails as stated for inactive lanes: with every lane
inactive, `occluded` returns true for lane 0 while `intersect` on the
same (freshly reset) ray packet records no hit there. -/
theorem c1_counterexample :
    ¬ (occluded mNone ray0 [triA] 0 = true ↔ intersectHit mNone ray0 [triA] 0 = true) := by
  have h1 : occluded mNone ray0 [triA] 0 = true := by
    rw [occluded_mask]
    simp [mNone]
  have h2 : intersectHit mNone ray0 [triA] 0 = false := by
    rw [intersectHit]
    simp [intersectHit, hitMaskTri, mNone]
  rw [h1, h2]
  simp

/-- Claim C1, amended to active lanes: for every ray packet, triangle
leaf and lane whose active-mask bit is true, `occluded` returns true
for that lane iff `intersect` on a ray packet freshly reset to the same
pre-call state would record a hit for that lane (every recorded hit has
its distance inside the lane's `[tnear, tfar]` interval by the depth
test of the slot that records it). -/
theorem c1_occluded_iff_hit (m : sseb) (ray : Ray4) (tri : Triangle4) (i : Fin 4)
    (hm : m i = true) :
    occluded m ray tri i = intersectHit m ray tri i := by
  rw [occluded_mask, hm, intersectHit_any m i hm]
  simp [hitMaskTri, hm]

/-- Witness for the amended C1 at a concrete active lane. -/
theorem c1_witness : occluded mAll ray0 [triA] 0 = intersectHit mAll ray0 [triA] 0 :=
  c1_occluded_iff_hit mAll ray0 [triA] 0 rfl

/-- Normalized form of the per-lane acceptance test: under `det ≠ 0`
the sign-corrected comparisons against the absolute determinant are
equivalent to conditions on the signed ratios `U/det`, `V/det`,
`T/det`, identical for both determinant signs. -/
theorem laneHit_normalized (t : TriSlot) (o d : Vec3) (tn tf : ℚ)
    (hdet : laneDet t d ≠ 0) :
    laneHit t o d tn tf = true ↔
      (0 ≤ laneUraw t o d / laneDet t d ∧ 0 ≤ laneVraw t o d / laneDet t d ∧
       laneUraw t o d / laneDet t d + laneVraw t o d / laneDet t d ≤ 1 ∧
       tn ≤ laneTraw t o / laneDet t d ∧ laneTraw t o / laneDet t d ≤ tf) := by
  rw [laneHit_true_iff, div_add_div_same]
  rcases hdet.lt_or_lt with hneg | hpos
  · have hs : laneSgn t d = true := by simp [laneSgn, hneg]
    have hU : laneU t o d = -laneUraw t o d := by rw [laneU, hs]; rfl
    have hV : laneV t o d = -laneVraw t o d := by rw [laneV, hs]; rfl
    have hT : laneT t o d = -laneTraw t o := by rw [laneT, hs]; rfl
    have a1 : 0 ≤ laneUraw t o d / laneDet t d ↔ laneUraw t o d ≤ 0 := by
      rw [le_div_iff_of_neg hneg, zero_mul]
    have a2 : 0 ≤ laneVraw t o d / laneDet t d ↔ laneVraw t o d ≤ 0 := by
      rw [le_div_iff_of_neg hneg, zero_mul]
    have a3 : (laneUraw t o d + laneVraw t o d) / laneDet t d ≤ 1 ↔
        laneDet t d ≤ laneUraw t o d + laneVraw t o d := by
      rw [div_le_iff_of_neg hneg, one_mul]
    have a4 : tn ≤ laneTraw t o / laneDet t d ↔ laneTraw t o ≤ tn * laneDet t d := by
      rw [le_div_iff_of_neg hneg]
    have a5 : laneTraw t o / laneDet t d ≤ tf ↔ tf * laneDet t d ≤ laneTraw t o := by
      rw [div_le_iff_of_neg hneg]
    rw [a1, a2, a3, a4, a5]
    rw [laneW, hU, hV, hT, abs_of_neg hneg]
    constructor
    · rintro ⟨-, h1, h2, h3, h4, h5⟩
      exact ⟨by linarith, by linarith, by linarith, by nlinarith, by nlinarith⟩
    · rintro ⟨h1, h2, h3, h4, h5⟩
      exact ⟨hdet, by linarith, by linarith, by linarith, by nlinarith, by nlinarith⟩
  · have hs : laneSgn t d = false := by simp [laneSgn, asymm hpos]
    have hU : laneU t o d = laneUraw t o d := by rw [laneU, hs]; rfl
    have hV : laneV t o d = laneVraw t o d := by rw [laneV, hs]; rfl
    have hT : laneT t o d = laneTraw t o := by rw [laneT, hs]; rfl
    have a1 : 0 ≤ laneUraw t o d / laneDet t d ↔ 0 ≤ laneUraw t o d := by
      rw [le_div_iff₀ hpos, zero_mul]
    have a2 : 0 ≤ laneVraw t o d / laneDet t d ↔ 0 ≤ laneVraw t o d := by
      rw [le_div_iff₀ hpos, zero_mul]
    have a3 : (laneUraw t o d + laneVraw t o d) / laneDet t d ≤ 1 ↔
        laneUraw t o d + laneVraw t o d ≤ laneDet t d := by
      rw [div_le_iff₀ hpos, one_mul]
    have a4 : tn ≤ laneTraw t o / laneDet t d ↔ tn * laneDet t d ≤ laneTraw t o := by
      rw [le_div_iff₀ hpos]
    have a5 : laneTraw t o / laneDet t d ≤ tf ↔ laneTraw t o ≤ tf * laneDet t d := by
      rw [div_le_iff₀ hpos]
    rw [a1, a2, a3, a4, a5]
    rw [laneW, hU, hV, hT, abs_of_pos hpos]
    constructor
    · rintro ⟨-, h1, h2, h3, h4, h5⟩
      exact ⟨by linarith, by linarith, by linarith, by nlinarith, by nlinarith⟩
    · rintro ⟨h1, h2, h3, h4, h5⟩
      exact ⟨hdet, by linarith, by linarith, by linarith, by nlinarith, by nlinarith⟩

/-- Claim C9: the test is double-sided.  The final per-slot mask of
both `intersect` and `occluded` accepts a lane iff the lane is active,
the determinant is nonzero, and the sign-independent normalized
conditions hold: `0 ≤ U/det`, `0 ≤ V/det`, `U/det + V/det ≤ 1` and
`tnear ≤ T/det ≤ tfar`.  A candidate with `det < 0` (a back-face
strike) is therefore accepted under exactly the same barycentric and
depth conditions as one with `det > 0`, because `U`, `V` and `T` are
sign-corrected by the determinant's sign bit and compared against the
absolute determinant; no back-face culling is performed. -/
theorem c9_double_sided (m : sseb) (ray : Ray4) (t : TriSlot) (i : Fin 4) :
    valid5 m ray t i = true ↔
      (m i = true ∧ laneDet t (laneDir ray i) ≠ 0 ∧
       (0 ≤ laneUraw t (laneOrg ray i) (laneDir ray i) / laneDet t (laneDir ray i) ∧
        0 ≤ laneVraw t (laneOrg ray i) (laneDir ray i) / laneDet t (laneDir ray i) ∧
        laneUraw t (laneOrg ray i) (laneDir ray i) / laneDet t (laneDir ray i) +
          laneVraw t (laneOrg ray i) (laneDir ray i) / laneDet t (laneDir ray i) ≤ 1 ∧
        ray.tnear i ≤ laneTraw t (laneOrg ray i) / laneDet t (laneDir ray i) ∧
        laneTraw t (laneOrg ray i) / laneDet t (laneDir ray i) ≤ ray.tfar i)) := by
  rw [valid5_eq, hitMaskTri, Bool.and_eq_true]
  constructor
  · rintro ⟨hm, hhit⟩
    have hdet := (laneHit_true_iff.1 hhit).1
    exact ⟨hm, hdet, (laneHit_normalized _ _ _ _ _ hdet).1 hhit⟩
  · rintro ⟨hm, hdet, hrest⟩
    exact ⟨hm, (laneHit_normalized _ _ _ _ _ hdet).2 hrest⟩

theorem intersectTri_hit_fields (m : sseb) (ray : Ray4) (t : TriSlot) (i : Fin 4)
    (h : hitMaskTri m ray t i = true) :
    (intersectTri m ray t).tfar i = laneTnorm t (laneOrg ray i) (laneDir ray i) ∧
    (intersectTri m ray t).id0 i = t.id0 ∧ (intersectTri m ray t).id1 i = t.id1 ∧
    (intersectTri m ray t).Ng.x i = t.Ng.x ∧
    (intersectTri m ray t).Ng.y i = t.Ng.y ∧
    (intersectTri m ray t).Ng.z i = t.Ng.z := by
  refine ⟨?_, ?_, ?_, ?_, ?_, ?_⟩
  · rw [intersectTri_tfar, if_pos h]
  · rw [intersectTri_id0, if_pos h]
  · rw [intersectTri_id1, if_pos h]
  · rw [intersectTri_Ngx, if_pos h]
  · rw [intersectTri_Ngy, if_pos h]
  · rw [intersectTri_Ngz, if_pos h]

theorem intersectTri_miss_fields (m : sseb) (ray : Ray4) (t : TriSlot) (i : Fin 4)
    (h : hitMaskTri m ray t i = false) :
    (intersectTri m ray t).tfar i = ray.tfar i ∧
    (intersectTri m ray t).id0 i = ray.id0 i ∧
    (intersectTri m ray t).id1 i = ray.id1 i ∧
    (intersectTri m ray t).Ng.x i = ray.Ng.x i ∧
    (intersectTri m ray t).Ng.y i = ray.Ng.y i ∧
    (intersectTri m ray t).Ng.z i = ray.Ng.z i := by
  have h' : ¬ (hitMaskTri m ray t i = true) := by simp [h]
  refine ⟨?_, ?_, ?_, ?_, ?_, ?_⟩
  · rw [intersectTri_tfar, if_neg h']
  · rw [intersectTri_id0, if_neg h']
  · rw [intersectTri_id1, if_neg h']
  · rw [intersectTri_Ngx, if_neg h']
  · rw [intersectTri_Ngy, if_neg h']
  · rw [intersectTri_Ngz, if_neg h']

theorem laneT_eq_tnorm_mul {t : TriSlot} {o d : Vec3} (h : laneDet t d ≠ 0) :
    laneT t o d = laneTnorm t o d * |laneDet t d| := by
  have habs : |laneDet t d| ≠ 0 := abs_ne_zero.2 h
  rw [laneTnorm, mul_assoc, inv_mul_cancel₀ habs, mul_one]

theorem laneHit_retighten {A : TriSlot} {o d : Vec3} {tn tf tf' : ℚ}
    (hA : laneHit A o d tn tf = true) (hle : laneTnorm A o d ≤ tf') :
    laneHit A o d tn tf' = true := by
  obtain ⟨h0, h1, h2, h3, h4, h5⟩ := laneHit_true_iff.1 hA
  rw [laneHit_true_iff]
  refine ⟨h0, h1, h2, h3, h4, ?_⟩
  have hpos : (0:ℚ) < |laneDet A d| := abs_pos.2 h0
  have ht : laneT A o d = laneTnorm A o d * |laneDet A d| := laneT_eq_tnorm_mul h0
  nlinarith

theorem laneHit_not_beyond {B : TriSlot} {o d : Vec3} {tn tf' : ℚ}
    (hgt : tf' < laneTnorm B o d) :
    laneHit B o d tn tf' = false := by
  cases hb : laneHit B o d tn tf' with
  | false => rfl
  | true => exact absurd ((laneHit_tnorm_bounds hb).2) (not_le.2 hgt)

/-- Claim C2: for a leaf of two triangles that an active lane hits at
strictly different distances, both inside the lane's initial interval,
`intersect` records the nearer distance and the nearer triangle's hit
fields regardless of slot order: the depth test of the later slot runs
against the `tfar` already tightened by the earlier slot. -/
theorem c2_nearest_hit (m : sseb) (ray : Ray4) (A B : TriSlot) (i : Fin 4)
    (hm : m i = true)
    (hA : laneHit A (laneOrg ray i) (laneDir ray i) (ray.tnear i) (ray.tfar i) = true)
    (hB : laneHit B (laneOrg ray i) (laneDir ray i) (ray.tnear i) (ray.tfar i) = true)
    (hlt : laneTnorm A (laneOrg ray i) (laneDir ray i) <
           laneTnorm B (laneOrg ray i) (laneDir ray i)) :
    ((intersect m ray [A, B]).tfar i = laneTnorm A (laneOrg ray i) (laneDir ray i) ∧
     (intersect m ray [A, B]).id0 i = A.id0 ∧
     (intersect m ray [A, B]).id1 i = A.id1 ∧
     (intersect m ray [A, B]).Ng.x i = A.Ng.x ∧
     (intersect m ray [A, B]).Ng.y i = A.Ng.y ∧
     (intersect m ray [A, B]).Ng.z i = A.Ng.z) ∧
    ((intersect m ray [B, A]).tfar i = laneTnorm A (laneOrg ray i) (laneDir ray i) ∧
     (intersect m ray [B, A]).id0 i = A.id0 ∧
     (intersect m ray [B, A]).id1 i = A.id1 ∧
     (intersect m ray [B, A]).Ng.x i = A.Ng.x ∧
     (intersect m ray [B, A]).Ng.y i = A.Ng.y ∧
     (intersect m ray [B, A]).Ng.z i = A.Ng.z) := by
  constructor
  · -- first order: A then B; B fails the depth test against the tightened tfar
    have hmaskA : hitMaskTri m ray A i = true := by simp [hitMaskTri, hm, hA]
    obtain ⟨f1, f2, f3, f4, f5, f6⟩ := intersectTri_hit_fields m ray A i hmaskA
    have hOrg : laneOrg (intersectTri m ray A) i = laneOrg ray i :=
      intersectTri_laneOrg m ray A i
    have hDir : laneDir (intersectTri m ray A) i = laneDir ray i :=
      intersectTri_laneDir m ray A i
    have hTn : (intersectTri m ray A).tnear i = ray.tnear i := by
      rw [intersectTri_tnear]
    have hmaskB : hitMaskTri m (intersectTri m ray A) B i = false := by
      rw [hitMaskTri, hOrg, hDir, hTn, f1, laneHit_not_beyond hlt, Bool.and_false]
    have heq : intersect m ray [A, B] = intersectTri m (intersectTri m ray A) B := rfl
    obtain ⟨g1, g2, g3, g4, g5, g6⟩ :=
      intersectTri_miss_fields m (intersectTri m ray A) B i hmaskB
    rw [heq, g1, g2, g3, g4, g5, g6]
    exact ⟨f1, f2, f3, f4, f5, f6⟩
  · -- second order: B then A; A re-passes the depth test against tfar = tB
    have hmaskB : hitMaskTri m ray B i = true := by simp [hitMaskTri, hm, hB]
    obtain ⟨f1, f2, f3, f4, f5, f6⟩ := intersectTri_hit_fields m ray B i hmaskB
    have hOrg : laneOrg (intersectTri m ray B) i = laneOrg ray i :=
      intersectTri_laneOrg m ray B i
    have hDir : laneDir (intersectTri m ray B) i = laneDir ray i :=
      intersectTri_laneDir m ray B i
    have hTn : (intersectTri m ray B).tnear i = ray.tnear i := by
      rw [intersectTri_tnear]
    have hAhit : laneHit A (laneOrg ray i) (laneDir ray i) (ray.tnear i)
        (laneTnorm B (laneOrg ray i) (laneDir ray i)) = true :=
      laneHit_retighten hA (le_of_lt hlt)
    have hmaskA : hitMaskTri m (intersectTri m ray B) A i = true := by
      rw [hitMaskTri, hOrg, hDir, hTn, f1, hm, hAhit, Bool.and_self]
    have heq : intersect m ray [B, A] = intersectTri m (intersectTri m ray B) A := rfl
    obtain ⟨g1, g2, g3, g4, g5, g6⟩ :=
      intersectTri_hit_fields m (intersectTri m ray B) A i hmaskA
    rw [heq, g1, g2, g3, g4, g5, g6, hOrg, hDir]
    exact ⟨rfl, rfl, rfl, rfl, rfl, rfl⟩

/-- Witness for C2: `ray0` hits `triA` at distance 1 and `triB` at
distance 2; in both slot orders the packet records distance 1 and
`triA`'s hit fields. -/
theorem c2_witness :
    ((intersect mAll ray0 [triA, triB]).tfar 0 =
        laneTnorm triA (laneOrg ray0 0) (laneDir ray0 0) ∧
     (intersect mAll ray0 [triA, triB]).id0 0 = triA.id0 ∧
     (intersect mAll ray0 [triA, triB]).id1 0 = triA.id1 ∧
     (intersect mAll ray0 [triA, triB]).Ng.x 0 = triA.Ng.x ∧
     (intersect mAll ray0 [triA, triB]).Ng.y 0 = triA.Ng.y ∧
     (intersect mAll ray0 [triA, triB]).Ng.z 0 = triA.Ng.z) ∧
    ((intersect mAll ray0 [triB, triA]).tfar 0 =
        laneTnorm triA (laneOrg ray0 0) (laneDir ray0 0) ∧
     (intersect mAll ray0 [triB, triA]).id0 0 = triA.id0 ∧
     (intersect mAll ray0 [triB, triA]).id1 0 = triA.id1 ∧
     (intersect mAll ray0 [triB, triA]).Ng.x 0 = triA.Ng.x ∧
     (intersect mAll ray0 [triB, triA]).Ng.y 0 = triA.Ng.y ∧
     (intersect mAll ray0 [triB, triA]).Ng.z 0 = triA.Ng.z) :=
  c2_nearest_hit mAll ray0 triA triB 0 rfl
    (by
      rw [laneHit_true_iff]
      norm_num [laneDet, laneDir, laneOrg, laneU, laneV, laneW, laneT, laneSgn,
        laneC, laneR, laneUraw, laneVraw, laneTraw, ray0, triA,
        Vec3.dot, Vec3.cross, Vec3.sub, xorSignQ])
    (by
      rw [laneHit_true_iff]
      norm_num [laneDet, laneDir, laneOrg, laneU, laneV, laneW, laneT, laneSgn,
        laneC, laneR, laneUraw, laneVraw, laneTraw, ray0, triB,
        Vec3.dot, Vec3.cross, Vec3.sub, xorSignQ])
    (by
      norm_num [laneTnorm, laneT, laneTraw, laneDet, laneSgn, laneC,
        laneOrg, laneDir, ray0, triA, triB, Vec3.dot, Vec3.sub, xorSignQ])

/-- Claim C4 fails on the code: the depth test's upper boundary
`absDet*ray.tfar >= T` is inclusive, so a later slot whose normalized
distance equals the lane's current `tfar` (recorded from an earlier
slot of the same leaf) passes the test and overwrites the recorded
hit fields.  `triA2` has the same geometry as `triA` (hit distance
exactly 1) but other ids, and after the leaf `[triA, triA2]` the lane
records `triA2`'s ids, not `triA`'s. -/
theorem c4_counterexample :
    laneTnorm triA2 (laneOrg ray0 0) (laneDir ray0 0) =
      (intersectTri mAll ray0 triA).tfar 0 ∧
    (intersectTri mAll ray0 triA).id0 0 = 10 ∧
    (intersect mAll ray0 [triA, triA2]).id0 0 = 40 ∧
    (intersect mAll ray0 [triA, triA2]).id1 0 = 41 := by
  have hA : laneHit triA (laneOrg ray0 0) (laneDir ray0 0)
      (ray0.tnear 0) (ray0.tfar 0) = true := by
    rw [laneHit_true_iff]
    norm_num [laneDet, laneDir, laneOrg, laneU, laneV, laneW, laneT, laneSgn,
      laneC, laneR, laneUraw, laneVraw, laneTraw, ray0, triA,
      Vec3.dot, Vec3.cross, Vec3.sub, xorSignQ]
  have hmaskA : hitMaskTri mAll ray0 triA 0 = true := by simp [hitMaskTri, mAll, hA]
  obtain ⟨f1, f2, -, -, -, -⟩ := intersectTri_hit_fields mAll ray0 triA 0 hmaskA
  have htA : laneTnorm triA (laneOrg ray0 0) (laneDir ray0 0) = 1 := by
    norm_num [laneTnorm, laneT, laneTraw, laneDet, laneSgn, laneC,
      laneOrg, laneDir, ray0, triA, Vec3.dot, Vec3.sub, xorSignQ]
  have htA2 : laneTnorm triA2 (laneOrg ray0 0) (laneDir ray0 0) = 1 := by
    norm_num [laneTnorm, laneT, laneTraw, laneDet, laneSgn, laneC,
      laneOrg, laneDir, ray0, triA2, Vec3.dot, Vec3.sub, xorSignQ]
  have h1 : (intersectTri mAll ray0 triA).tfar 0 = 1 := by rw [f1, htA]
  have hOrg : laneOrg (intersectTri mAll ray0 triA) 0 = laneOrg ray0 0 :=
    intersectTri_laneOrg mAll ray0 triA 0
  have hDir : laneDir (intersectTri mAll ray0 triA) 0 = laneDir ray0 0 :=
    intersectTri_laneDir mAll ray0 triA 0
  have hTn : (intersectTri mAll ray0 triA).tnear 0 = ray0.tnear 0 :=
    congrFun (intersectTri_tnear mAll ray0 triA) 0
  have hA2 : laneHit triA2 (laneOrg ray0 0) (laneDir ray0 0) (ray0.tnear 0) 1 = true := by
    rw [laneHit_true_iff]
    norm_num [laneDet, laneDir, laneOrg, laneU, laneV, laneW, laneT, laneSgn,
      laneC, laneR, laneUraw, laneVraw, laneTraw, ray0, triA2,
      Vec3.dot, Vec3.cross, Vec3.sub, xorSignQ]
  have hmask2 : hitMaskTri mAll (intersectTri mAll ray0 triA) triA2 0 = true := by
    rw [hitMaskTri, hOrg, hDir, hTn, h1]
    simp [mAll, hA2]
  have heq : intersect mAll ray0 [triA, triA2] =
      intersectTri mAll (intersectTri mAll ray0 triA) triA2 := rfl
  obtain ⟨-, g2, g3, -, -, -⟩ :=
    intersectTri_hit_fields mAll (intersectTri mAll ray0 triA) triA2 0 hmask2
  refine ⟨?_, ?_, ?_, ?_⟩
  · rw [htA2, h1]
  · rw [f2]; rfl
  · rw [heq, g2]; rfl
  · rw [heq, g3]; rfl

/-- Claim C4 amended: during `intersect`, if a later triangle slot
produces for a lane a normalized hit distance exactly equal to that
lane's current `tfar` (recorded from an earlier slot of the same leaf)
and passes the barycentric tests, it passes the inclusive depth test
and DOES overwrite the recorded hit fields of that lane: on exact ties
the later slot wins. -/
theorem c4_equal_t_overwrites (m : sseb) (ray : Ray4) (A B : TriSlot) (i : Fin 4)
    (hm : m i = true)
    (hA : laneHit A (laneOrg ray i) (laneDir ray i) (ray.tnear i) (ray.tfar i) = true)
    (hB : laneHit B (laneOrg ray i) (laneDir ray i) (ray.tnear i)
            (laneTnorm A (laneOrg ray i) (laneDir ray i)) = true)
    (heq : laneTnorm B (laneOrg ray i) (laneDir ray i) =
           laneTnorm A (laneOrg ray i) (laneDir ray i)) :
    (intersect m ray [A, B]).id0 i = B.id0 ∧
    (intersect m ray [A, B]).id1 i = B.id1 ∧
    (intersect m ray [A, B]).tfar i = laneTnorm A (laneOrg ray i) (laneDir ray i) := by
  have hmaskA : hitMaskTri m ray A i = true := by simp [hitMaskTri, hm, hA]
  obtain ⟨f1, -, -, -, -, -⟩ := intersectTri_hit_fields m ray A i hmaskA
  have hOrg : laneOrg (intersectTri m ray A) i = laneOrg ray i :=
    intersectTri_laneOrg m ray A i
  have hDir : laneDir (intersectTri m ray A) i = laneDir ray i :=
    intersectTri_laneDir m ray A i
  have hTn : (intersectTri m ray A).tnear i = ray.tnear i :=
    congrFun (intersectTri_tnear m ray A) i
  have hmaskB : hitMaskTri m (intersectTri m ray A) B i = true := by
    rw [hitMaskTri, hOrg, hDir, hTn, f1, hm, hB, Bool.and_self]
  have hlist : intersect m ray [A, B] = intersectTri m (intersectTri m ray A) B := rfl
  obtain ⟨g1, g2, g3, -, -, -⟩ :=
    intersectTri_hit_fields m (intersectTri m ray A) B i hmaskB
  rw [hlist, g1, g2, g3, hOrg, hDir, heq]
  exact ⟨rfl, rfl, rfl⟩

/-- Witness for the amended C4 at the concrete equal-distance pair. -/
theorem c4_witness :
    (intersect mAll ray0 [triA, triA2]).id0 0 = triA2.id0 ∧
    (intersect mAll ray0 [triA, triA2]).id1 0 = triA2.id1 ∧
    (intersect mAll ray0 [triA, triA2]).tfar 0 =
      laneTnorm triA (laneOrg ray0 0) (laneDir ray0 0) :=
  c4_equal_t_overwrites mAll ray0 triA triA2 0 rfl
    (by
      rw [laneHit_true_iff]
      norm_num [laneDet, laneDir, laneOrg, laneU, laneV, laneW, laneT, laneSgn,
        laneC, laneR, laneUraw, laneVraw, laneTraw, ray0, triA,
        Vec3.dot, Vec3.cross, Vec3.sub, xorSignQ])
    (by
      rw [laneHit_true_iff]
      norm_num [laneTnorm, laneDet, laneDir, laneOrg, laneU, laneV, laneW, laneT,
        laneSgn, laneC, laneR, laneUraw, laneVraw, laneTraw, ray0, triA, triA2,
        Vec3.dot, Vec3.cross, Vec3.sub, xorSignQ])
    (by
      norm_num [laneTnorm, laneT, laneTraw, laneDet, laneSgn, laneC,
        laneOrg, laneDir, ray0, triA, triA2, Vec3.dot, Vec3.sub, xorSignQ])
